import Mathlib

/-!
Verification of the emergency-department queue engine in
`ifem_award_api/app.py` against its natural-language specification.

The Python source is shallowly embedded: the per-patient phase and
investigation state machines (`progress_patient_phase`), the advancement
pass (`update_patients`), the scheduler portion of `get_queue`
(lines 133-147) and its sort-parameter resolution (lines 174-176).
Randomness (`random.choices`, `random.random`) and the external
`generate_mock_patient` collaborator are passed in explicitly through an
`Env` record; wall-clock readings (`datetime.now()`) are `Nat`
parameters.  The Redis store is a list of patients (its iteration order)
plus the optional `last_update` cursor; `add_patient` replaces by id or
appends, `remove_patient` filters by id, mirroring keyed storage.
-/

namespace IfemAward

/-- The `current_phase` values used by `app.py`. -/
inductive Phase where
  | registered
  | triaged
  | investigations_pending
  | treatment
  | admitted
  | discharged
deriving DecidableEq

/-- Investigation states (`enums.InvestigationState` values as used in
`app.py`: the strings `ordered`, `pending`, `reported`). -/
inductive InvState where
  | ordered
  | pending
  | reported
deriving DecidableEq

/-- The `patient.status` dict: key `current_phase` always present, key
`investigations` optional (the `'investigations' in patient.status` check). -/
structure Status where
  current_phase : Phase
  investigations : Option (InvState × InvState)
deriving DecidableEq

/-- Modelled from the spec: the `Patient` class lives in the missing
`patients` module; its attributes are the ones `app.py` itself accesses
(`id`, `triage_category`, `arrival_time`, `status`, `queue_position`,
`time_elapsed`) and which spec section 3 lists as the data model.
`queue_position` is the `{global, category}` pair, `investigations` the
`labs`/`imaging` pair.  `time_elapsed` is derived (`now - arrival_time`),
so it is not a stored field here. -/
structure Patient where
  id : Nat
  triage_category : Nat
  arrival_time : Nat
  status : Status
  queue_position : Nat × Nat
deriving DecidableEq

/-- One step of a single investigation: `ordered → pending`,
`pending → reported`, else unchanged (lines 62-65 of `app.py`). -/
def advanceInv : InvState → InvState
  | InvState.ordered => InvState.pending
  | InvState.pending => InvState.reported
  | InvState.reported => InvState.reported

/-- The `phase_transitions` dict of `progress_patient_phase` (lines 40-45):
a lookup that is only defined on non-terminal phases.  The `treatment`
entry is `random.choices(['admitted','discharged'], weights=[15,85])[0]`;
the draw is the `coin` argument (`true` = `admitted`). -/
def phase_transition (coin : Bool) : Phase → Option Phase
  | Phase.registered => some Phase.triaged
  | Phase.triaged => some Phase.investigations_pending
  | Phase.investigations_pending => some Phase.treatment
  | Phase.treatment => some (if coin then Phase.admitted else Phase.discharged)
  | _ => none

/-- `progress_patient_phase` (lines 37-65 of `app.py`).  Note the branch
structure: the investigations-advance branch is keyed off `current_phase`
captured *before* the phase mutation, and is an `elif` of the
initialization branch. -/
def progress_patient_phase (coin : Bool) (patient : Patient) : Patient :=
  let current_phase := patient.status.current_phase
  match phase_transition coin current_phase with
  | none => patient
  | some new_phase =>
    let patient1 : Patient :=
      { patient with status := { patient.status with current_phase := new_phase } }
    if new_phase = Phase.investigations_pending then
      { patient1 with status := { patient1.status with
          investigations := some (InvState.ordered, InvState.ordered) } }
    else if current_phase = Phase.investigations_pending then
      match patient1.status.investigations with
      | some li => { patient1 with status := { patient1.status with
          investigations := some (advanceInv li.1, advanceInv li.2) } }
      | none => patient1
    else
      patient1

/-- The terminal-phase test of line 83:
`patient.status['current_phase'] in ['discharged', 'admitted']`. -/
def isTerminal : Phase → Bool
  | Phase.admitted => true
  | Phase.discharged => true
  | _ => false

/-- Claim C7: for every patient not in a terminal phase, one invocation of
`progress_patient_phase` advances `current_phase` exactly one step along
`registered→triaged`, `triaged→investigations_pending`,
`investigations_pending→treatment`, `treatment→(admitted|discharged)`;
entering `investigations_pending` sets `status.investigations` to
`{labs: ordered, imaging: ordered}`; a patient already `admitted` or
`discharged` keeps its phase and all other fields; identity, triage
category, arrival time and queue position are never touched. -/
theorem c7_phase_step (coin : Bool) (p : Patient) :
    (progress_patient_phase coin p).status.current_phase =
      (match p.status.current_phase with
       | Phase.registered => Phase.triaged
       | Phase.triaged => Phase.investigations_pending
       | Phase.investigations_pending => Phase.treatment
       | Phase.treatment => if coin then Phase.admitted else Phase.discharged
       | ph => ph)
    ∧ (progress_patient_phase coin p).status.investigations =
      (match p.status.current_phase with
       | Phase.triaged => some (InvState.ordered, InvState.ordered)
       | Phase.investigations_pending =>
           (p.status.investigations).map (fun li => (advanceInv li.1, advanceInv li.2))
       | _ => p.status.investigations)
    ∧ (progress_patient_phase coin p).id = p.id
    ∧ (progress_patient_phase coin p).triage_category = p.triage_category
    ∧ (progress_patient_phase coin p).arrival_time = p.arrival_time
    ∧ (progress_patient_phase coin p).queue_position = p.queue_position := by
  obtain ⟨i, t, a, ⟨ph, inv⟩, q⟩ := p
  cases ph <;> cases inv <;>
    simp [progress_patient_phase, phase_transition] <;>
    cases coin <;> simp [progress_patient_phase, phase_transition]

/-- Claim C9 counterexample: a patient at `investigations_pending` with
investigations present advances to `treatment` but still carries the
investigations mapping — the code never deletes `status.investigations`,
so the claimed "exists iff phase is investigations_pending" invariant is
false immediately after the phase advances past that phase. -/
theorem c9_counterexample :
    (progress_patient_phase true
      { id := 1, triage_category := 3, arrival_time := 0,
        status := { current_phase := Phase.investigations_pending,
                    investigations := some (InvState.ordered, InvState.ordered) },
        queue_position := (1, 1) }).status.current_phase = Phase.treatment
    ∧ (progress_patient_phase true
      { id := 1, triage_category := 3, arrival_time := 0,
        status := { current_phase := Phase.investigations_pending,
                    investigations := some (InvState.ordered, InvState.ordered) },
        queue_position := (1, 1) }).status.investigations ≠ none := by
  decide

/-- Claim C9 (amended): `status.investigations`, once present, is never
removed by the state machine; after a step it is present exactly when it
was present before or the step entered `investigations_pending` (the
patient was `triaged`).  Patients whose phase has advanced past
`investigations_pending` keep carrying the mapping. -/
theorem c9_investigations_never_cleared (coin : Bool) (p : Patient) :
    (progress_patient_phase coin p).status.investigations.isSome =
      (p.status.investigations.isSome || (p.status.current_phase == Phase.triaged)) := by
  obtain ⟨i, t, a, ⟨ph, inv⟩, q⟩ := p
  cases ph <;> cases inv <;>
    simp [progress_patient_phase, phase_transition] <;>
    cases coin <;> simp [progress_patient_phase, phase_transition]

/-- Claim C3 counterexample: a patient entering the pass at
`investigations_pending` with both investigations `ordered` has them at
`pending` (not `reported`) after the second pass — the investigations
branch only fires while the phase at entry is `investigations_pending`,
and the first pass already moved the patient to `treatment`. -/
theorem c3_counterexample :
    (progress_patient_phase true (progress_patient_phase true
      { id := 2, triage_category := 2, arrival_time := 0,
        status := { current_phase := Phase.investigations_pending,
                    investigations := some (InvState.ordered, InvState.ordered) },
        queue_position := (1, 1) })).status.investigations
      = some (InvState.pending, InvState.pending)
    ∧ (progress_patient_phase true (progress_patient_phase true
      { id := 2, triage_category := 2, arrival_time := 0,
        status := { current_phase := Phase.investigations_pending,
                    investigations := some (InvState.ordered, InvState.ordered) },
        queue_position := (1, 1) })).status.investigations
      ≠ some (InvState.reported, InvState.reported) := by
  decide

/-- Claim C3 (amended): from `investigations_pending` with
`{labs: ordered, imaging: ordered}`, the first pass moves both tests to
`pending` and the phase to `treatment`; the second pass leaves both tests
unchanged at `pending` (they never reach `reported`) while the phase
moves to `admitted` or `discharged` per the 4.1 table; a third pass
changes nothing at all. -/
theorem c3_investigations_single_advance (c1 c2 c3 : Bool) (i tc ar : Nat)
    (qp : Nat × Nat) :
    (progress_patient_phase c1
        { id := i, triage_category := tc, arrival_time := ar,
          status := { current_phase := Phase.investigations_pending,
                      investigations := some (InvState.ordered, InvState.ordered) },
          queue_position := qp }).status.current_phase = Phase.treatment
    ∧ (progress_patient_phase c1
        { id := i, triage_category := tc, arrival_time := ar,
          status := { current_phase := Phase.investigations_pending,
                      investigations := some (InvState.ordered, InvState.ordered) },
          queue_position := qp }).status.investigations
        = some (InvState.pending, InvState.pending)
    ∧ (progress_patient_phase c2 (progress_patient_phase c1
        { id := i, triage_category := tc, arrival_time := ar,
          status := { current_phase := Phase.investigations_pending,
                      investigations := some (InvState.ordered, InvState.ordered) },
          queue_position := qp })).status.investigations
        = some (InvState.pending, InvState.pending)
    ∧ (progress_patient_phase c2 (progress_patient_phase c1
        { id := i, triage_category := tc, arrival_time := ar,
          status := { current_phase := Phase.investigations_pending,
                      investigations := some (InvState.ordered, InvState.ordered) },
          queue_position := qp })).status.current_phase
        = (if c2 then Phase.admitted else Phase.discharged)
    ∧ (progress_patient_phase c3 (progress_patient_phase c2 (progress_patient_phase c1
        { id := i, triage_category := tc, arrival_time := ar,
          status := { current_phase := Phase.investigations_pending,
                      investigations := some (InvState.ordered, InvState.ordered) },
          queue_position := qp })))
        = progress_patient_phase c2 (progress_patient_phase c1
        { id := i, triage_category := tc, arrival_time := ar,
          status := { current_phase := Phase.investigations_pending,
                      investigations := some (InvState.ordered, InvState.ordered) },
          queue_position := qp }) := by
  cases c1 <;> cases c2 <;> cases c3 <;>
    simp [progress_patient_phase, phase_transition, advanceInv]

/-- The sort key of line 76: `(p.triage_category, p.arrival_time)` compared
lexicographically, as Python compares tuples. -/
def patientLE (p q : Patient) : Prop :=
  p.triage_category < q.triage_category ∨
    (p.triage_category = q.triage_category ∧ p.arrival_time ≤ q.arrival_time)

instance : DecidableRel patientLE := fun p q => by
  unfold patientLE; infer_instance

instance : IsTotal Patient patientLE where
  total p q := by
    unfold patientLE
    rcases Nat.lt_trichotomy p.triage_category q.triage_category with h | h | h
    · exact Or.inl (Or.inl h)
    · rcases Nat.le_total p.arrival_time q.arrival_time with h' | h'
      · exact Or.inl (Or.inr ⟨h, h'⟩)
      · exact Or.inr (Or.inr ⟨h.symm, h'⟩)
    · exact Or.inr (Or.inl h)

instance : IsTrans Patient patientLE where
  trans p q r hpq hqr := by
    unfold patientLE at *
    rcases hpq with h1 | ⟨h1, h1'⟩ <;> rcases hqr with h2 | ⟨h2, h2'⟩
    · exact Or.inl (Nat.lt_trans h1 h2)
    · exact Or.inl (h2 ▸ h1)
    · exact Or.inl (h1 ▸ h2)
    · exact Or.inr ⟨h1.trans h2, Nat.le_trans h1' h2'⟩

/-- `patient_list.sort(key=lambda p: (p.triage_category, p.arrival_time))`
(line 76).  Python's sort is stable; a stable sort with respect to a total
preorder has a unique result, so insertion sort is a faithful embedding. -/
def sortPatients (l : List Patient) : List Patient :=
  List.insertionSort patientLE l

/-- The first pass of `update_patients` (lines 82-89): terminal patients
are collected for removal (and removed from the store); every other
patient is advanced in place by `progress_patient_phase`.  The `Nat`
argument indexes the random draws: Python consumes one
`random.choices` draw per non-terminal patient, in traversal order.
Returns `(removed_patients, survivors)` in traversal order. -/
def firstPass (coins : Nat → Bool) : List Patient → Nat → List Patient × List Patient
  | [], _ => ([], [])
  | p :: ps, i =>
    if isTerminal p.status.current_phase then
      let rest := firstPass coins ps i
      (p :: rest.1, rest.2)
    else
      let rest := firstPass coins ps (i + 1)
      (rest.1, progress_patient_phase (coins i) p :: rest.2)

/-- The position counters of lines 93-94: `global_pos = 1` and
`category_positions = {i: 1 for i in range(1, 6)}`.  The dict is modelled
as a total function; the generator (spec section 3) only produces
`triage_category ∈ {1..5}`, so the lookup never faults. -/
structure Counters where
  global_pos : Nat
  category_positions : Nat → Nat

/-- Counter initialization (lines 93-94). -/
def initCounters : Counters :=
  { global_pos := 1, category_positions := fun _ => 1 }

/-- One position assignment (lines 98-103 / 109-114): write
`{global, category}` from the counters, then bump the global counter and
the counter of the patient's category. -/
def assignPos (c : Counters) (p : Patient) : Patient × Counters :=
  ({ p with queue_position := (c.global_pos, c.category_positions p.triage_category) },
   { global_pos := c.global_pos + 1,
     category_positions := fun k =>
       if k = p.triage_category then c.category_positions k + 1
       else c.category_positions k })

/-- Assign positions to a whole list in order, threading the counters. -/
def assignAll (c : Counters) : List Patient → List Patient × Counters
  | [] => ([], c)
  | p :: ps =>
    let pc := assignPos c p
    let rest := assignAll pc.2 ps
    (pc.1 :: rest.1, rest.2)

/-- The randomness and the external patient generator consumed by one
advancement pass: `coin i` is the `random.choices` draw for the `i`-th
progressed patient (`true` = `admitted`), `growth` is the
`random.random() < 0.3` draw of line 118, and `gen k` is the result of
the `k`-th `generate_mock_patient()` call of the pass. -/
structure Env where
  coin : Nat → Bool
  growth : Bool
  gen : Nat → Patient

/-- The Redis-backed state visible to the engine: the patient entries (in
iteration order) and the `last_update` cursor. -/
structure Store where
  patients : List Patient
  last_update : Option Nat
deriving DecidableEq

/-- `add_patient` (lines 27-30): keyed `SET`, so an existing id is
replaced in place and a fresh id is appended. -/
def putPatient (l : List Patient) (p : Patient) : List Patient :=
  if l.any (fun q => q.id == p.id) then
    l.map (fun q => if q.id == p.id then p else q)
  else l ++ [p]

/-- The second pass of `update_patients` (lines 96-115), run only when
removals occurred: assign dense positions to the survivors in canonical
order, then generate `removed_count` replacements and let them continue
the same counters.  Returns `(renumbered survivors, replacements,
final counters)`. -/
def secondPass (env : Env) (survivors : List Patient) (removed_count : Nat) :
    List Patient × List Patient × Counters :=
  let sc := assignAll initCounters survivors
  let rc := assignAll sc.2 ((List.range removed_count).map env.gen)
  (sc.1, rc.1, rc.2)

/-- The opportunistic-growth branch (lines 118-124):
`if len(patients) < 30 and random.random() < 0.3`.  When the pass had no
removals, `global_pos` and `category_positions` were never bound, and the
branch raises `UnboundLocalError` before assigning a position or
persisting — modelled by the `none` counters case. -/
def growthStep (env : Env) (pre_pass_size removed_count : Nat)
    (counters : Option Counters) (st : Store) : Store × Option String :=
  if pre_pass_size < 30 && env.growth then
    match counters with
    | some c =>
      let np0 := env.gen removed_count
      let np : Patient := { np0 with
        queue_position := (c.global_pos, c.category_positions np0.triage_category) }
      ({ st with patients := putPatient st.patients np }, none)
    | none => (st, some "UnboundLocalError: global_pos")
  else (st, none)

/-- `update_patients` (lines 67-124).  The store's `last_update` cursor is
unconditionally overwritten with the pass time (line 70); terminal-at-entry
patients are deleted from the store during the first pass; the second pass
and replacement generation only run when removals occurred; the growth
branch runs last.  The result pairs the final store with the uncaught
Python exception, if any (the store already carries every write performed
before the raise). -/
def update_patients (env : Env) (store : Store) (now : Nat) : Store × Option String :=
  let patients := store.patients
  let patient_list := sortPatients patients
  let fp := firstPass env.coin patient_list 0
  let removed_patients := fp.1
  let survivors := fp.2
  let removed_count := removed_patients.length
  let store1 : Store :=
    { patients := patients.filter (fun p => removed_patients.all (fun r => r.id != p.id)),
      last_update := some now }
  if removed_count ≠ 0 then
    let sp := secondPass env survivors removed_count
    let base := sp.1.foldl putPatient store1.patients
    let withReps := (sp.2.1).foldl putPatient base
    growthStep env patients.length removed_count (some sp.2.2)
      { store1 with patients := withReps }
  else
    growthStep env patients.length removed_count none store1

/-- The scheduler portion of `get_queue` (lines 133-147): read the cursor;
if present, compute `minutes_passed` and `updates_needed`, run exactly one
pass, and re-write the cursor with the request time only when
`updates_needed > 0` (skipped when the pass raised); if absent, store
"now" and run no pass.  `now` is the `datetime.now()` of line 134,
`nowPass` the one of line 69 inside the pass.  The third component
records whether `update_patients` executed. -/
def get_queue_sched (env : Env) (store : Store) (now nowPass : Nat) :
    Store × Option String × Bool :=
  match store.last_update with
  | some lu =>
    let minutes_passed := (now - lu) / 60
    let updates_needed := minutes_passed / 15
    let res := update_patients env store nowPass
    match res.2 with
    | some e => (res.1, some e, true)
    | none =>
      if 0 < updates_needed then
        ({ res.1 with last_update := some now }, none, true)
      else
        (res.1, none, true)
  | none => ({ store with last_update := some now }, none, false)

/-- A fixed patient used to instantiate the external generator in
concrete evaluations. -/
def somePatient : Patient :=
  { id := 99, triage_category := 3, arrival_time := 7,
    status := { current_phase := Phase.registered, investigations := none },
    queue_position := (0, 0) }

/-- Claim C8: when no `last_update` cursor exists, `get_queue` stores the
current time as the cursor, runs no advancement pass, and leaves the
patient population untouched. -/
theorem c8_bootstrap_no_pass (env : Env) (store : Store) (now nowPass : Nat)
    (h : store.last_update = none) :
    get_queue_sched env store now nowPass =
      ({ store with last_update := some now }, none, false) := by
  unfold get_queue_sched
  rw [h]

/-- Witness for C8 at a concrete bootstrap state. -/
theorem c8_bootstrap_no_pass_witness :
    (⟨[somePatient], none⟩ : Store).last_update = none
    ∧ get_queue_sched ⟨fun _ => true, false, fun _ => somePatient⟩
        ⟨[somePatient], none⟩ 5 6 =
      (⟨[somePatient], some 5⟩, none, false) :=
  ⟨rfl, c8_bootstrap_no_pass _ _ _ _ rfl⟩

/-- Claim C4: with no removal in the pass, a population below 30 and the
growth draw firing, `update_patients` raises
`UnboundLocalError: global_pos` — the counters are only bound inside the
removal branch — and persists no additional patient, contradicting the
claimed error-free generation (spec section 9 itself flags these counters
as a bug to fix).  Concretely: one `registered` patient, growth draw
fires. -/
theorem c4_growth_unbound_counters :
    (update_patients ⟨fun _ => true, true, fun _ => somePatient⟩
        ⟨[{ id := 1, triage_category := 2, arrival_time := 0,
            status := { current_phase := Phase.registered, investigations := none },
            queue_position := (1, 1) }], some 0⟩ 50).2
      = some "UnboundLocalError: global_pos"
    ∧ (update_patients ⟨fun _ => true, true, fun _ => somePatient⟩
        ⟨[{ id := 1, triage_category := 2, arrival_time := 0,
            status := { current_phase := Phase.registered, investigations := none },
            queue_position := (1, 1) }], some 0⟩ 50).1.patients
      = [{ id := 1, triage_category := 2, arrival_time := 0,
           status := { current_phase := Phase.registered, investigations := none },
           queue_position := (1, 1) }] := by
  decide

/-- The growth branch never touches the cursor. -/
theorem growthStep_last_update (env : Env) (n m : Nat) (co : Option Counters)
    (st : Store) : (growthStep env n m co st).1.last_update = st.last_update := by
  unfold growthStep
  split
  · cases co <;> simp
  · simp

/-- Every pass overwrites the cursor with the pass time, on every branch
(line 70 of the source runs before anything else). -/
theorem update_patients_last_update (env : Env) (store : Store) (now : Nat) :
    (update_patients env store now).1.last_update = some now := by
  simp only [update_patients]
  split <;> simp [growthStep_last_update]

/-- Claim C2 counterexample: with one elapsed minute (fewer than 15), a
queue request still changes the stored cursor — `update_patients` itself
overwrites it at the start of every pass — so "the stored timestamp is
unchanged by the request" is false. -/
theorem c2_counterexample :
    ((60 : Nat) - 0) / 60 / 15 = 0
    ∧ (get_queue_sched ⟨fun _ => false, false, fun _ => somePatient⟩
        ⟨[], some 0⟩ 60 60).1.last_update = some 60
    ∧ (some (60 : Nat)) ≠ some 0 := by
  decide

/-- Claim C2 (amended): the cursor is never left unchanged by a request
with a prior timestamp: `update_patients` unconditionally stores its own
pass time, and `get_queue` re-stores the request time on top of it only
when at least one 15-minute interval elapsed and the pass did not raise. -/
theorem c2_cursor_always_overwritten (env : Env) (store : Store)
    (now nowPass lu : Nat) (h : store.last_update = some lu) :
    (get_queue_sched env store now nowPass).1.last_update =
      some (if 0 < (now - lu) / 60 / 15
              ∧ (update_patients env store nowPass).2 = none
            then now else nowPass) := by
  unfold get_queue_sched
  rw [h]
  rcases herr : (update_patients env store nowPass).2 with _ | e
  · by_cases hu : 0 < (now - lu) / 60 / 15
    · simp [hu, herr, update_patients_last_update]
    · simp [hu, herr, update_patients_last_update]
  · simp [herr, update_patients_last_update]

/-- Witness for C2 (amended) at a concrete request 33 minutes after the
stored cursor. -/
theorem c2_cursor_always_overwritten_witness :
    (⟨[], some 0⟩ : Store).last_update = some 0
    ∧ (get_queue_sched ⟨fun _ => false, false, fun _ => somePatient⟩
        ⟨[], some 0⟩ 2000 2001).1.last_update =
      some (if 0 < ((2000 : Nat) - 0) / 60 / 15
              ∧ (update_patients ⟨fun _ => false, false, fun _ => somePatient⟩
                  ⟨[], some 0⟩ 2001).2 = none
            then 2000 else 2001) :=
  ⟨rfl, c2_cursor_always_overwritten _ _ _ _ _ rfl⟩

/-- `progress_patient_phase` only touches `status`: identity, triage
category and arrival time survive untouched. -/
theorem progress_fields (coin : Bool) (p : Patient) :
    (progress_patient_phase coin p).id = p.id
    ∧ (progress_patient_phase coin p).triage_category = p.triage_category
    ∧ (progress_patient_phase coin p).arrival_time = p.arrival_time := by
  obtain ⟨i, t, a, ⟨ph, inv⟩, q⟩ := p
  cases ph <;> cases inv <;>
    simp [progress_patient_phase, phase_transition] <;>
    cases coin <;> simp [progress_patient_phase, phase_transition]

/-- The removed list of the first pass is exactly the terminal-at-entry
patients, in traversal order. -/
theorem firstPass_fst_eq_filter (coins : Nat → Bool) :
    ∀ (l : List Patient) (i : Nat),
      (firstPass coins l i).1 = l.filter (fun p => isTerminal p.status.current_phase) := by
  intro l
  induction l with
  | nil => intro i; rfl
  | cons p ps ih =>
    intro i
    by_cases hp : isTerminal p.status.current_phase = true
    · simp [firstPass, hp, ih]
    · simp [firstPass, hp, ih]

/-- Every survivor of the first pass descends from a non-terminal-at-entry
patient of the input, with the same id, triage category and arrival
time. -/
theorem firstPass_snd_mem (coins : Nat → Bool) :
    ∀ (l : List Patient) (i : Nat) (q : Patient), q ∈ (firstPass coins l i).2 →
      ∃ q0 ∈ l, isTerminal q0.status.current_phase = false
        ∧ q.id = q0.id ∧ q.triage_category = q0.triage_category
        ∧ q.arrival_time = q0.arrival_time := by
  intro l
  induction l with
  | nil => intro i q h; simp [firstPass] at h
  | cons p ps ih =>
    intro i q h
    by_cases hp : isTerminal p.status.current_phase = true
    · simp only [firstPass, hp, if_true] at h
      rcases ih i q h with ⟨q0, h0, hrest⟩
      exact ⟨q0, List.mem_cons_of_mem _ h0, hrest⟩
    · simp only [firstPass, hp, if_false, Bool.false_eq_true] at h
      rcases List.mem_cons.mp h with rfl | h'
      · refine ⟨p, List.mem_cons_self _ _, ?_, ?_, ?_, ?_⟩
        · simpa using hp
        · exact (progress_fields _ _).1
        · exact (progress_fields _ _).2.1
        · exact (progress_fields _ _).2.2
      · rcases ih (i + 1) q h' with ⟨q0, h0, hrest⟩
        exact ⟨q0, List.mem_cons_of_mem _ h0, hrest⟩

/-- A member of `putPatient l x` is `x` or was already in `l`. -/
theorem mem_putPatient {l : List Patient} {x q : Patient}
    (h : q ∈ putPatient l x) : q = x ∨ q ∈ l := by
  unfold putPatient at h
  split at h
  · rcases List.mem_map.mp h with ⟨r, hr, hrq⟩
    by_cases hid : (r.id == x.id) = true
    · left
      rw [if_pos hid] at hrq
      exact hrq.symm
    · right
      rw [if_neg hid] at hrq
      exact hrq ▸ hr
  · rcases List.mem_append.mp h with h' | h'
    · right; exact h'
    · left; simpa using h'

/-- A member of a `putPatient` fold is in the base or among the written
patients. -/
theorem mem_foldl_putPatient :
    ∀ (xs base : List Patient) (q : Patient),
      q ∈ xs.foldl putPatient base → q ∈ base ∨ q ∈ xs := by
  intro xs
  induction xs with
  | nil => intro base q h; exact Or.inl h
  | cons x xs ih =>
    intro base q h
    rcases ih (putPatient base x) q h with h' | h'
    · rcases mem_putPatient h' with rfl | h''
      · right; exact List.mem_cons_self _ _
      · left; exact h''
    · right; exact List.mem_cons_of_mem _ h'

/-- Position assignment only rewrites `queue_position`: each assigned
patient matches a source patient in id, triage category and arrival
time. -/
theorem mem_assignAll :
    ∀ (l : List Patient) (c : Counters) (q : Patient), q ∈ (assignAll c l).1 →
      ∃ q0 ∈ l, q.id = q0.id ∧ q.triage_category = q0.triage_category
        ∧ q.arrival_time = q0.arrival_time := by
  intro l
  induction l with
  | nil => intro c q h; simp [assignAll] at h
  | cons p ps ih =>
    intro c q h
    simp only [assignAll] at h
    rcases List.mem_cons.mp h with rfl | h'
    · exact ⟨p, List.mem_cons_self _ _, by simp [assignPos], by simp [assignPos],
        by simp [assignPos]⟩
    · rcases ih _ q h' with ⟨q0, h0, hrest⟩
      exact ⟨q0, List.mem_cons_of_mem _ h0, hrest⟩

/-- With undefined counters the growth branch leaves the store as it was
(it raises before writing). -/
theorem growthStep_none_fst (env : Env) (n m : Nat) (st : Store) :
    (growthStep env n m none st).1 = st := by
  unfold growthStep
  split <;> simp

/-- A member of the store after the growth branch was already present or
is the freshly generated patient (whose id is `(env.gen m).id`). -/
theorem mem_growthStep (env : Env) (n m : Nat) (co : Option Counters) (st : Store)
    (q : Patient) (h : q ∈ (growthStep env n m co st).1.patients) :
    q ∈ st.patients ∨ q.id = (env.gen m).id := by
  unfold growthStep at h
  split at h
  · cases co with
    | some c =>
      simp only at h
      rcases mem_putPatient h with rfl | h'
      · right; rfl
      · left; exact h'
    | none => left; exact h
  · left; exact h

/-- Claim C5: a pass that removes nobody persists no survivor — all the
in-memory phase and investigation advancement is discarded, and the
stored population is byte-for-byte unchanged; only the `last_update`
cursor is written (the opportunistic growth branch either does not fire
or raises before persisting, so not even a new patient appears). -/
theorem c5_no_removal_frame (env : Env) (store : Store) (now : Nat)
    (h : ∀ p ∈ store.patients, isTerminal p.status.current_phase = false) :
    (update_patients env store now).1.patients = store.patients
    ∧ (update_patients env store now).1.last_update = some now := by
  have hrem : (firstPass env.coin (sortPatients store.patients) 0).1 = [] := by
    rw [firstPass_fst_eq_filter, List.filter_eq_nil_iff]
    intro a ha
    have := h a ((List.mem_insertionSort (r := patientLE)).mp ha)
    simp [this]
  simp only [update_patients, hrem]
  simp [growthStep_none_fst]

/-- Witness for C5: one `registered` patient, growth draw not firing. -/
theorem c5_no_removal_frame_witness :
    (∀ p ∈ (⟨[somePatient], some 0⟩ : Store).patients,
        isTerminal p.status.current_phase = false)
    ∧ ((update_patients ⟨fun _ => true, false, fun _ => somePatient⟩
          ⟨[somePatient], some 0⟩ 42).1.patients = [somePatient]
      ∧ (update_patients ⟨fun _ => true, false, fun _ => somePatient⟩
          ⟨[somePatient], some 0⟩ 42).1.last_update = some 42) :=
  ⟨by decide, c5_no_removal_frame _ _ _ (by decide)⟩

/-- A patient already `admitted` at pass entry, removed by the pass. -/
def c1p1 : Patient :=
  { id := 1, triage_category := 3, arrival_time := 5,
    status := { current_phase := Phase.admitted, investigations := none },
    queue_position := (1, 1) }

/-- A patient entering the pass at `treatment`, which the pass (coin =
`admitted`) moves into a terminal phase. -/
def c1p2 : Patient :=
  { id := 2, triage_category := 3, arrival_time := 6,
    status := { current_phase := Phase.treatment, investigations := none },
    queue_position := (2, 2) }

/-- Environment for the C1 scenario: every treatment draw yields
`admitted`, the growth draw does not fire, generated replacement patients
get fresh ids from 50. -/
def c1env : Env :=
  { coin := fun _ => true, growth := false,
    gen := fun k =>
      { id := 50 + k, triage_category := 4, arrival_time := 9,
        status := { current_phase := Phase.registered, investigations := none },
        queue_position := (0, 0) } }

/-- Claim C1 counterexample: patient id 2 enters the pass at `treatment`
(not terminal), transitions into `admitted` during the pass — and is
persisted by the pass in that terminal phase (the second pass writes every
patient not in `removed_patients`, and only patients terminal *at entry*
are in `removed_patients`).  So a patient whose phase becomes terminal
during the pass is present in the store when the pass completes. -/
theorem c1_counterexample :
    ((⟨[c1p1, c1p2], some 0⟩ : Store).patients.any
        (fun q => q.id == 2 && !isTerminal q.status.current_phase)) = true
    ∧ ((update_patients c1env ⟨[c1p1, c1p2], some 0⟩ 100).1.patients.any
        (fun q => q.id == 2 && isTerminal q.status.current_phase)) = true := by
  decide

/-- Claim C1 (amended): the pass purges exactly the patients that are
already terminal *at pass entry*: no patient with such an id survives
into the store the pass leaves behind.  A patient that only transitions
into a terminal phase during the pass is not purged by that pass (see the
counterexample); it is persisted terminal when a removal occurred, else
its terminal phase is discarded with the rest of the in-memory pass.
Hypotheses: stored ids are unique (the store is keyed by id) and the
generator produces fresh ids (spec section 3: ids are never reused). -/
theorem c1_terminal_at_entry_purged (env : Env) (store : Store) (now : Nat)
    (hids : (store.patients.map Patient.id).Nodup)
    (hgen : ∀ k : Nat, ∀ p ∈ store.patients, (env.gen k).id ≠ p.id) :
    ∀ p ∈ store.patients, isTerminal p.status.current_phase = true →
      ∀ q ∈ (update_patients env store now).1.patients, q.id ≠ p.id := by
  intro p hp hterm q hq
  have hpmem : p ∈ (firstPass env.coin (sortPatients store.patients) 0).1 := by
    rw [firstPass_fst_eq_filter]
    exact List.mem_filter.mpr ⟨(List.mem_insertionSort (r := patientLE)).mpr hp, hterm⟩
  have hne : (firstPass env.coin (sortPatients store.patients) 0).1.length ≠ 0 := by
    intro h0
    rw [List.length_eq_zero] at h0
    rw [h0] at hpmem
    exact absurd hpmem (List.not_mem_nil p)
  simp only [update_patients, secondPass] at hq
  rw [if_pos hne] at hq
  rcases mem_growthStep _ _ _ _ _ _ hq with hq | hq
  · simp only at hq
    rcases mem_foldl_putPatient _ _ _ hq with hq | hq
    · rcases mem_foldl_putPatient _ _ _ hq with hq | hq
      · rcases List.mem_filter.mp hq with ⟨_, hall⟩
        have := (List.all_eq_true.mp hall) p hpmem
        intro habs
        rw [habs] at this
        simp at this
      · rcases mem_assignAll _ _ _ hq with ⟨q0, h0, hid, _⟩
        rcases firstPass_snd_mem _ _ _ _ h0 with ⟨q1, h1, hterm1, hid1, _⟩
        have hq1 : q1 ∈ store.patients := (List.mem_insertionSort (r := patientLE)).mp h1
        intro habs
        have : q1 = p := List.inj_on_of_nodup_map hids hq1 hp (by
          rw [← hid1, ← habs, hid])
        rw [this, hterm] at hterm1
        exact absurd hterm1 (by simp)
    · rcases mem_assignAll _ _ _ hq with ⟨q0, h0, hid, _⟩
      rcases List.mem_map.mp h0 with ⟨k, _, hk⟩
      intro habs
      exact hgen k p hp (by rw [← hk] at hid; rw [← hid, habs])
  · intro habs
    exact hgen _ p hp (by rw [← hq, habs])

/-- Witness for C1 (amended) on the two-patient C1 scenario. -/
theorem c1_terminal_at_entry_purged_witness :
    ((⟨[c1p1, c1p2], some 0⟩ : Store).patients.map Patient.id).Nodup
    ∧ (∀ k : Nat, ∀ p ∈ (⟨[c1p1, c1p2], some 0⟩ : Store).patients,
        (c1env.gen k).id ≠ p.id)
    ∧ (∀ p ∈ (⟨[c1p1, c1p2], some 0⟩ : Store).patients,
        isTerminal p.status.current_phase = true →
        ∀ q ∈ (update_patients c1env ⟨[c1p1, c1p2], some 0⟩ 100).1.patients,
          q.id ≠ p.id) :=
  ⟨by decide,
   by intro k p hp; fin_cases hp <;> simp [c1env, c1p1, c1p2] <;> omega,
   c1_terminal_at_entry_purged c1env _ 100 (by decide)
     (by intro k p hp; fin_cases hp <;> simp [c1env, c1p1, c1p2] <;> omega)⟩

@[simp] theorem assignPos_fst_id (c : Counters) (p : Patient) :
    (assignPos c p).1.id = p.id := rfl

@[simp] theorem assignPos_fst_triage (c : Counters) (p : Patient) :
    (assignPos c p).1.triage_category = p.triage_category := rfl

@[simp] theorem assignPos_fst_arrival (c : Counters) (p : Patient) :
    (assignPos c p).1.arrival_time = p.arrival_time := rfl

@[simp] theorem assignPos_fst_qp (c : Counters) (p : Patient) :
    (assignPos c p).1.queue_position
      = (c.global_pos, c.category_positions p.triage_category) := rfl

@[simp] theorem assignPos_snd_global (c : Counters) (p : Patient) :
    (assignPos c p).2.global_pos = c.global_pos + 1 := rfl

@[simp] theorem assignPos_snd_cat (c : Counters) (p : Patient) (k : Nat) :
    (assignPos c p).2.category_positions k
      = if k = p.triage_category then c.category_positions k + 1
        else c.category_positions k := rfl

/-- The global positions handed out by `assignAll` are consecutive from
the incoming counter, which advances by the list length. -/
theorem assignAll_global : ∀ (l : List Patient) (c : Counters),
    (assignAll c l).1.map (fun p => p.queue_position.1)
      = List.range' c.global_pos l.length
    ∧ (assignAll c l).2.global_pos = c.global_pos + l.length := by
  intro l
  induction l with
  | nil => intro c; simp [assignAll]
  | cons p ps ih =>
    intro c
    simp only [assignAll, List.map_cons, List.length_cons]
    constructor
    · rw [(ih _).1, List.range'_succ]
      simp
    · rw [(ih _).2]
      simp
      omega

/-- Within each triage category, `assignAll` hands out consecutive
category positions from the incoming per-category counter, which advances
by the number of patients of that category. -/
theorem assignAll_cat (k : Nat) : ∀ (l : List Patient) (c : Counters),
    ((assignAll c l).1.filter (fun p => p.triage_category == k)).map
        (fun p => p.queue_position.2)
      = List.range' (c.category_positions k)
          (l.countP (fun p => p.triage_category == k))
    ∧ (assignAll c l).2.category_positions k
      = c.category_positions k + l.countP (fun p => p.triage_category == k) := by
  intro l
  induction l with
  | nil => intro c; simp [assignAll]
  | cons p ps ih =>
    intro c
    by_cases hk : (p.triage_category == k) = true
    · have hk' : p.triage_category = k := by simpa using hk
      subst hk'
      constructor
      · simp only [assignAll, List.filter_cons, assignPos_fst_triage, beq_self_eq_true,
          if_true, List.map_cons, assignPos_fst_qp, List.countP_cons]
        rw [(ih _).1]
        simp [List.range'_succ]
      · simp only [assignAll, List.countP_cons, beq_self_eq_true]
        rw [(ih _).2]
        simp
        omega
    · have hkb : (p.triage_category == k) = false := by simpa using hk
      have hk' : ¬ k = p.triage_category := by
        intro h; exact hk (by simp [h])
      constructor
      · simp only [assignAll, List.filter_cons, assignPos_fst_triage, hkb,
          Bool.false_eq_true, if_false, List.countP_cons]
        rw [(ih _).1]
        simp [hkb, hk']
      · simp only [assignAll, List.countP_cons, hkb]
        rw [(ih _).2]
        simp [hk']

/-- `assignAll` preserves length. -/
theorem assignAll_length : ∀ (l : List Patient) (c : Counters),
    (assignAll c l).1.length = l.length := by
  intro l
  induction l with
  | nil => intro c; rfl
  | cons p ps ih => intro c; simp [assignAll, ih]

/-- The number of category-`k` patients among an assigned list equals the
count in its source list. -/
theorem assignAll_filter_length (k : Nat) (l : List Patient) (c : Counters) :
    ((assignAll c l).1.filter (fun p => p.triage_category == k)).length
      = l.countP (fun p => p.triage_category == k) := by
  have h := congrArg List.length (assignAll_cat k l c).1
  simpa using h

/-- `patientLE` only looks at the sort key, so it transfers across any
key-preserving rewrite of the two patients. -/
theorem patientLE_congr {p q p' q' : Patient}
    (hp1 : p'.triage_category = p.triage_category)
    (hp2 : p'.arrival_time = p.arrival_time)
    (hq1 : q'.triage_category = q.triage_category)
    (hq2 : q'.arrival_time = q.arrival_time)
    (h : patientLE p q) : patientLE p' q' := by
  unfold patientLE
  rw [hp1, hp2, hq1, hq2]
  exact h

/-- Phase advancement preserves the canonical ordering of the surviving
sequence: the survivors of a sorted input are sorted. -/
theorem firstPass_snd_pairwise (coins : Nat → Bool) :
    ∀ (l : List Patient) (i : Nat), List.Pairwise patientLE l →
      List.Pairwise patientLE (firstPass coins l i).2 := by
  intro l
  induction l with
  | nil => intro i _; simp [firstPass]
  | cons p ps ih =>
    intro i h
    rcases List.pairwise_cons.mp h with ⟨hhead, htail⟩
    by_cases hp : isTerminal p.status.current_phase = true
    · simp only [firstPass, hp, if_true]
      exact ih i htail
    · simp only [firstPass, hp, if_false, Bool.false_eq_true]
      refine List.pairwise_cons.mpr ⟨?_, ih (i + 1) htail⟩
      intro q hq
      rcases firstPass_snd_mem coins ps (i + 1) q hq with ⟨q0, h0, _, _, ht, ha⟩
      exact patientLE_congr (progress_fields _ _).2.1 (progress_fields _ _).2.2
        ht ha (hhead q0 h0)

/-- Position assignment preserves the canonical ordering. -/
theorem assignAll_pairwise :
    ∀ (l : List Patient) (c : Counters), List.Pairwise patientLE l →
      List.Pairwise patientLE (assignAll c l).1 := by
  intro l
  induction l with
  | nil => intro c _; simp [assignAll]
  | cons p ps ih =>
    intro c h
    rcases List.pairwise_cons.mp h with ⟨hhead, htail⟩
    simp only [assignAll]
    refine List.pairwise_cons.mpr ⟨?_, ih _ htail⟩
    intro q hq
    rcases mem_assignAll _ _ _ hq with ⟨q0, h0, _, ht, ha⟩
    exact patientLE_congr (assignPos_fst_triage c p) (assignPos_fst_arrival c p)
      ht ha (hhead q0 h0)

/-- The survivors of one pass over a store, in canonical order (the
`patient_list` traversal minus `removed_patients`). -/
def passSurvivors (env : Env) (store : Store) : List Patient :=
  (firstPass env.coin (sortPatients store.patients) 0).2

/-- How many patients the pass removes (`removed_count`). -/
def passRemovedCount (env : Env) (store : Store) : Nat :=
  (firstPass env.coin (sortPatients store.patients) 0).1.length

/-- All patients the removal branch persists with freshly assigned
positions: the renumbered survivors followed by the generated
replacements. -/
def passAssigned (env : Env) (store : Store) : List Patient :=
  (secondPass env (passSurvivors env store) (passRemovedCount env store)).1
    ++ (secondPass env (passSurvivors env store) (passRemovedCount env store)).2.1

/-- Claim C6: after a pass with at least one removal, the global positions
assigned to survivors plus replacements are exactly `1..N` in order (dense,
no gaps, no duplicates), the category positions within each triage
category `k` are exactly `1..Mₖ` in order, survivors come before the
replacements, and the survivors are numbered in canonical
`(triage_category, arrival_time)` ascending order. -/
theorem c6_dense_positions (env : Env) (store : Store)
    (_hrem : 0 < passRemovedCount env store) :
    (passAssigned env store).map (fun p => p.queue_position.1)
      = List.range' 1 (passAssigned env store).length
    ∧ (∀ k : Nat,
        ((passAssigned env store).filter (fun p => p.triage_category == k)).map
            (fun p => p.queue_position.2)
          = List.range' 1
              ((passAssigned env store).filter
                (fun p => p.triage_category == k)).length)
    ∧ List.Pairwise patientLE
        (secondPass env (passSurvivors env store) (passRemovedCount env store)).1 := by
  refine ⟨?_, ?_, ?_⟩
  · simp only [passAssigned, secondPass, List.map_append, List.length_append]
    rw [(assignAll_global _ _).1, (assignAll_global _ _).1,
      (assignAll_global _ _).2, assignAll_length, assignAll_length]
    show List.range' initCounters.global_pos _ ++
      List.range' (initCounters.global_pos + _) _ = _
    rw [List.range'_append_1]
    simp [initCounters]
    omega
  · intro k
    simp only [passAssigned, secondPass, List.filter_append, List.map_append,
      List.length_append]
    rw [(assignAll_cat k _ _).1, (assignAll_cat k _ _).1, (assignAll_cat k _ _).2,
      assignAll_filter_length, assignAll_filter_length]
    show List.range' (initCounters.category_positions k) _ ++
      List.range' (initCounters.category_positions k + _) _ = _
    rw [List.range'_append_1]
    simp [initCounters]
    omega
  · simp only [secondPass]
    apply assignAll_pairwise
    apply firstPass_snd_pairwise
    exact List.sorted_insertionSort patientLE store.patients

/-- Witness for C6 on the two-patient C1 scenario (one removal, one
replacement). -/
theorem c6_dense_positions_witness :
    0 < passRemovedCount c1env ⟨[c1p1, c1p2], some 0⟩
    ∧ ((passAssigned c1env ⟨[c1p1, c1p2], some 0⟩).map (fun p => p.queue_position.1)
        = List.range' 1 (passAssigned c1env ⟨[c1p1, c1p2], some 0⟩).length
      ∧ (∀ k : Nat,
          ((passAssigned c1env ⟨[c1p1, c1p2], some 0⟩).filter
              (fun p => p.triage_category == k)).map (fun p => p.queue_position.2)
            = List.range' 1
                ((passAssigned c1env ⟨[c1p1, c1p2], some 0⟩).filter
                  (fun p => p.triage_category == k)).length)
      ∧ List.Pairwise patientLE
          (secondPass c1env (passSurvivors c1env ⟨[c1p1, c1p2], some 0⟩)
            (passRemovedCount c1env ⟨[c1p1, c1p2], some 0⟩)).1) :=
  ⟨by decide, c6_dense_positions c1env _ (by decide)⟩

/-- Modelled from the spec: the attribute set of the `Patient` class (the
class itself lives in the missing `patients` module).  `app.py` itself
accesses exactly `id`, `triage_category`, `arrival_time`, `status`,
`queue_position` and `time_elapsed`, and spec section 3 lists the same
data model, with `time_elapsed` derived as `now - arrival_time`. -/
inductive PatientAttr where
  | id
  | triage_category
  | arrival_time
  | status
  | queue_position
  | time_elapsed
deriving DecidableEq

/-- `getattr(p, sort)` resolution: a raw name lookup with no validation
and no fallback — any other string raises `AttributeError`. -/
def lookupAttr (s : String) : Option PatientAttr :=
  if s = "id" then some PatientAttr.id
  else if s = "triage_category" then some PatientAttr.triage_category
  else if s = "arrival_time" then some PatientAttr.arrival_time
  else if s = "status" then some PatientAttr.status
  else if s = "queue_position" then some PatientAttr.queue_position
  else if s = "time_elapsed" then some PatientAttr.time_elapsed
  else none

/-- The sort key `getattr(p, sort)` yields, when Python can order it:
the scalar attributes compare as numbers (`time_elapsed` is the derived
`now - arrival_time`), while `status` and `queue_position` hold dicts
(lines 53 and 98 of `app.py`), which Python's `<` refuses to compare —
so no key exists for them. -/
def attrKey (now : Nat) : PatientAttr → Option (Patient → Nat)
  | PatientAttr.id => some (fun p => p.id)
  | PatientAttr.triage_category => some (fun p => p.triage_category)
  | PatientAttr.arrival_time => some (fun p => p.arrival_time)
  | PatientAttr.time_elapsed => some (fun p => now - p.arrival_time)
  | PatientAttr.status => none
  | PatientAttr.queue_position => none

/-- Lines 174-176 of `get_queue`:
`sort = request.args.get('sort', 'arrival_time')` then
`patients.sort(key=lambda p: getattr(p, sort))`.  CPython computes every
key first (so an unknown attribute raises `AttributeError` whenever the
list is non-empty) and only compares keys between two elements (so an
unorderable dict-valued key raises `TypeError` exactly when the list has
at least two elements). -/
def get_queue_sort (sortArg : Option String) (now : Nat)
    (patients : List Patient) : Except String (List Patient) :=
  let sort := sortArg.getD "arrival_time"
  match lookupAttr sort with
  | none =>
    if patients.isEmpty then Except.ok patients
    else Except.error "AttributeError"
  | some attr =>
    match attrKey now attr with
    | some key => Except.ok (patients.insertionSort (fun p q => key p ≤ key q))
    | none =>
      if patients.length ≤ 1 then Except.ok patients
      else Except.error "TypeError"

/-- Claim C10 counterexample: `status` names an actual `Patient`
attribute, yet `?sort=status` on a two-patient queue does not return a
sorted list — it fails (`TypeError`: Python cannot order the dict
values), so "for every sort value naming an actual Patient attribute the
request returns the sorted list" is false. -/
theorem c10_counterexample :
    lookupAttr "status" = some PatientAttr.status
    ∧ get_queue_sort (some "status") 100 [c1p1, c1p2] = Except.error "TypeError" :=
  ⟨rfl, rfl⟩

/-- Claim C10 (amended): the sort parameter is resolved by raw attribute
lookup with no validation and no fallback.  On the non-empty list the
endpoint always sorts (the bootstrap path guarantees non-emptiness at
line 176): a value naming no attribute fails with `AttributeError`; a
value naming a comparable attribute returns the list sorted by that key;
a value naming a dict-valued attribute (`status`, `queue_position`) fails
with `TypeError` whenever at least two patients are listed.  In no case
is there a fallback or a not-found result. -/
theorem c10_sort_resolution (now : Nat) (patients : List Patient) (s : String)
    (hne : patients ≠ []) :
    (lookupAttr s = none →
      get_queue_sort (some s) now patients = Except.error "AttributeError")
    ∧ (∀ a, lookupAttr s = some a →
        (∀ key, attrKey now a = some key →
          get_queue_sort (some s) now patients
            = Except.ok (patients.insertionSort (fun p q => key p ≤ key q)))
        ∧ (attrKey now a = none → 2 ≤ patients.length →
          get_queue_sort (some s) now patients = Except.error "TypeError")) := by
  constructor
  · intro h
    simp [get_queue_sort, h, List.isEmpty_iff, hne]
  · intro a ha
    constructor
    · intro key hkey
      simp [get_queue_sort, ha, hkey]
    · intro hkey h2
      have hgt : ¬ patients.length ≤ 1 := by omega
      simp [get_queue_sort, ha, hkey, hgt]

/-- Witness for C10 (amended) on a two-patient queue with the unknown
sort value "severity". -/
theorem c10_sort_resolution_witness :
    ([c1p1, c1p2] : List Patient) ≠ []
    ∧ ((lookupAttr "severity" = none →
        get_queue_sort (some "severity") 100 [c1p1, c1p2]
          = Except.error "AttributeError")
      ∧ (∀ a, lookupAttr "severity" = some a →
          (∀ key, attrKey 100 a = some key →
            get_queue_sort (some "severity") 100 [c1p1, c1p2]
              = Except.ok (([c1p1, c1p2] : List Patient).insertionSort
                  (fun p q => key p ≤ key q)))
          ∧ (attrKey 100 a = none → 2 ≤ ([c1p1, c1p2] : List Patient).length →
            get_queue_sort (some "severity") 100 [c1p1, c1p2]
              = Except.error "TypeError"))) :=
  ⟨by decide, c10_sort_resolution 100 [c1p1, c1p2] "severity" (by decide)⟩

end IfemAward
